import Mathlib

/-!
Verification of the armbian/imager core engines against their specification.

The Rust sources are shallowly embedded: pure helpers become Lean functions
on `String`/`List Char`/`Nat`; the effectful engines (download, decompress,
flash, Windows device enumeration) become functions over an explicit
environment record that carries the outcome of every native or I/O call the
code makes, together with an explicit effect/state record (temp-file and
output-file existence, network-call count, filesystem-write count, mtime
touches).  The shared cancellation flag is embedded as a function
`cancel : Nat -> Bool` giving the value the flag holds at the n-th poll the
code performs; every poll of the flag in the source advances the poll clock
by one.
-/

namespace ArmbianImager

/-! ## utils/format.rs -/

/-- Round the exact rational `n / d` (with `d > 0`) to the nearest natural,
ties to even — the rounding mode Rust float formatting applies for `:.0`
and, after scaling by 10, for `:.1`.  The `u64 -> f64` cast and the division
by a power of two in `format_size` are exact for all sizes below 2^53, so
this exact-arithmetic model agrees with the source there. -/
def round_half_even_div (n d : ℕ) : ℕ :=
  if 2 * (n % d) < d then n / d
  else if d < 2 * (n % d) then n / d + 1
  else if n / d % 2 = 0 then n / d else n / d + 1

/-- Rust `format!("\x7b:.0\x7d", n as f64 / d as f64)`. -/
def fmt_dec0 (n d : ℕ) : String :=
  toString (round_half_even_div n d)

/-- Rust `format!("\x7b:.1\x7d", n as f64 / d as f64)`. -/
def fmt_dec1 (n d : ℕ) : String :=
  toString (round_half_even_div (n * 10) d / 10) ++ "." ++
    toString (round_half_even_div (n * 10) d % 10)

/-- `format_size` from `src/src-tauri/src/utils/format.rs`. -/
def format_size (bytes : ℕ) : String :=
  if 1024 * 1024 * 1024 * 1024 ≤ bytes then
    fmt_dec1 bytes (1024 * 1024 * 1024 * 1024) ++ " TB"
  else if 1024 * 1024 * 1024 ≤ bytes then
    fmt_dec1 bytes (1024 * 1024 * 1024) ++ " GB"
  else if 1024 * 1024 ≤ bytes then
    fmt_dec0 bytes (1024 * 1024) ++ " MB"
  else if 1024 ≤ bytes then
    fmt_dec0 bytes 1024 ++ " KB"
  else
    toString bytes ++ " B"

/-! ## download.rs: pure helpers -/

/-- The part of the URL before the first question mark:
Rust `url.split('?').next().unwrap_or(url)`. -/
def pre_query (url : String) : List Char :=
  url.data.takeWhile fun c => c != '?'

/-- The (possibly empty) segment after the last slash:
Rust `s.split('/').next_back()`. -/
def last_segment (l : List Char) : List Char :=
  (l.reverse.takeWhile fun c => c != '/').reverse

/-- `extract_filename` from `src/src-tauri/src/download.rs`: take the part
before any query string, then the segment after the last slash, and reject
it when empty (Rust `.filter(|s| !s.is_empty()).ok_or_else(...)`). -/
def extract_filename (url : String) : Except String String :=
  if last_segment (pre_query url) = [] then .error "Invalid URL: no filename"
  else .ok (String.mk (last_segment (pre_query url)))

/-- `is_github_url` from `src/src-tauri/src/download.rs`:
Rust `url.contains("github.com")`. -/
def is_github_url (url : String) : Bool :=
  decide ("github.com".data <:+: url.data)

/-- Rust `char::to_lowercase` restricted to ASCII, which is all the code
applies it to (hex digests and file extensions). -/
def ascii_to_lower (c : Char) : Char :=
  if 'A' ≤ c ∧ c ≤ 'Z' then Char.ofNat (c.toNat + 32) else c

/-- Rust `str::to_lowercase` (ASCII inputs). -/
def to_lower_str (s : String) : String :=
  String.mk (s.data.map ascii_to_lower)

/-- Rust `char::is_ascii_hexdigit`. -/
def is_ascii_hexdigit (c : Char) : Bool :=
  c.isDigit || (decide ('a' ≤ c) && decide (c ≤ 'f')) || (decide ('A' ≤ c) && decide (c ≤ 'F'))

/-- Rust `str::ends_with`, on the character lists. -/
def ends_with (s suf : String) : Bool :=
  decide (suf.data <:+ s.data)

/-- Rust removal of the last `n` characters (`String::drop` of the suffix). -/
def drop_right_str (s : String) (n : ℕ) : String :=
  String.mk (s.data.take (s.data.length - n))

/-- One stripping step of Rust `str::trim_end_matches`, iterated with fuel
(the string length bounds the number of strips for a nonempty pattern). -/
def trim_end_matches_go (suf : String) : ℕ → String → String
  | 0, s => s
  | n + 1, s =>
    if suf ≠ "" ∧ ends_with s suf then trim_end_matches_go suf n (drop_right_str s suf.length)
    else s

/-- Rust `s.trim_end_matches(suf)`: repeatedly strip the suffix. -/
def trim_end_matches (s suf : String) : String :=
  trim_end_matches_go suf s.length s

/-- `parse_sha_content`: the pure part of `fetch_sha_from_url` in
`src/src-tauri/src/download.rs` — first whitespace token, lowercased, must be
64 hex chars. -/
def parse_sha_content (content : String) : Except String String :=
  match (content.data.dropWhile Char.isWhitespace).takeWhile (fun c => !c.isWhitespace) with
  | [] => .error "Invalid SHA file format"
  | c :: cs =>
    if ((to_lower_str (String.mk (c :: cs))).length = 64 ∧
        ∀ ch ∈ (to_lower_str (String.mk (c :: cs))).data, is_ascii_hexdigit ch) then
      .ok (to_lower_str (String.mk (c :: cs)))
    else .error ("Invalid SHA256 hash format: " ++ to_lower_str (String.mk (c :: cs)))

/-! ## decompress.rs: pure helpers -/

/-- Rust `Path::extension()` on a bare file name: the part after the last
dot; `none` when there is no dot or when the only dot leads the name. -/
def path_extension (name : List Char) : Option (List Char) :=
  if (name.reverse.takeWhile fun c => c != '.').length = name.length then none
  else if (name.reverse.takeWhile fun c => c != '.').length + 1 = name.length ∧
      name.head? = some '.' then none
  else some (name.reverse.takeWhile fun c => c != '.').reverse

/-- `needs_decompression` from `src/src-tauri/src/decompress.rs`: extension
lookup, lowercased, against xz/gz/bz2/zst. -/
def needs_decompression (name : String) : Bool :=
  ["xz", "gz", "bz2", "zst"].contains
    (to_lower_str (String.mk ((path_extension name.data).getD [])))

/-- Environment for the local-file decompression entry point: the outcome of
the calls `decompress_local_file` makes.  The codec streaming loop itself is
embedded separately (`decompress_with_reader_mt` model below); here only its
overall outcome per format is needed. -/
structure LocalDecompEnv where
  output_already_exists : Bool
  timestamp : ℕ
  codec_result : String → Except String Unit

/-- `decompress_local_file` from `src/src-tauri/src/decompress.rs`
(lines 136-220), for an input path that is a bare file name: strip the four
compression extensions in order to get the base name, append a timestamp,
short-circuit if the output already exists, then dispatch on the raw
(case-sensitive) file name suffix; unknown suffixes are rejected. -/
def decompress_local_file (env : LocalDecompEnv) (filename : String) : Except String String :=
  if env.output_already_exists then
    .ok ("custom-decompress/" ++
      trim_end_matches (trim_end_matches (trim_end_matches (trim_end_matches
        filename ".xz") ".gz") ".bz2") ".zst" ++ "-" ++ toString env.timestamp)
  else if ends_with filename ".xz" then
    (env.codec_result "xz").map fun _ => "custom-decompress/" ++
      trim_end_matches (trim_end_matches (trim_end_matches (trim_end_matches
        filename ".xz") ".gz") ".bz2") ".zst" ++ "-" ++ toString env.timestamp
  else if ends_with filename ".gz" then
    (env.codec_result "gz").map fun _ => "custom-decompress/" ++
      trim_end_matches (trim_end_matches (trim_end_matches (trim_end_matches
        filename ".xz") ".gz") ".bz2") ".zst" ++ "-" ++ toString env.timestamp
  else if ends_with filename ".bz2" then
    (env.codec_result "bz2").map fun _ => "custom-decompress/" ++
      trim_end_matches (trim_end_matches (trim_end_matches (trim_end_matches
        filename ".xz") ".gz") ".bz2") ".zst" ++ "-" ++ toString env.timestamp
  else if ends_with filename ".zst" then
    (env.codec_result "zstd").map fun _ => "custom-decompress/" ++
      trim_end_matches (trim_end_matches (trim_end_matches (trim_end_matches
        filename ".xz") ".gz") ".bz2") ".zst" ++ "-" ++ toString env.timestamp
  else
    .error ("Unsupported compression format for: " ++ filename)

end ArmbianImager

namespace ArmbianImager

/-! ## Helper lemmas -/

/-- The last segment is a suffix of the list it was cut from. -/
theorem last_segment_isSuffix (l : List Char) : last_segment l <:+ l := by
  refine ⟨(l.reverse.dropWhile fun c => c != '/').reverse, ?_⟩
  rw [last_segment, ← List.reverse_append, List.takeWhile_append_dropWhile, List.reverse_reverse]

/-- Characters of the last segment are not slashes. -/
theorem last_segment_no_slash (l : List Char) :
    ∀ c ∈ last_segment l, c ≠ '/' := by
  intro c hc
  rw [last_segment, List.mem_reverse] at hc
  have := List.mem_takeWhile_imp hc
  simpa using this

/-- The last segment is empty exactly when the list is empty or ends in a
slash. -/
theorem last_segment_eq_nil_iff (l : List Char) :
    last_segment l = [] ↔ l.getLast? = some '/' ∨ l = [] := by
  rw [last_segment, List.reverse_eq_nil_iff, ← List.head?_reverse]
  cases h : l.reverse with
  | nil =>
    simp [List.reverse_eq_nil_iff.mp h]
  | cons c rest =>
    have hne : l ≠ [] := by
      intro hl
      rw [hl] at h
      exact absurd h (by simp)
    by_cases hc : c = '/'
    · simp [hc, List.takeWhile_cons]
    · simp [hc, List.takeWhile_cons, hne]

/-! ## Claim theorems: C7, C9, C10 -/

/-- C9: `format_size` maps 0 to "0 B", 1024 to "1 KB", 1536 to "2 KB"
(round half to even on 1.5), and 1073741824 to "1.0 GB". -/
theorem format_size_spec_values :
    format_size 0 = "0 B" ∧ format_size 1024 = "1 KB" ∧
    format_size 1536 = "2 KB" ∧ format_size 1073741824 = "1.0 GB" := by
  refine ⟨by decide, by decide, by decide, by decide⟩

/-- C7 counterexample: for a URL whose path ends in a slash the claim says
the filename is the last non-empty segment ("archive" here); the code
instead fails with the invalid-URL error. -/
theorem extract_filename_trailing_slash_cex :
    extract_filename "https://dl.armbian.com/orangepi5/archive/" =
      .error "Invalid URL: no filename" ∧
    extract_filename "https://dl.armbian.com/orangepi5/archive/" ≠ .ok "archive" := by
  have h : extract_filename "https://dl.armbian.com/orangepi5/archive/" =
      .error "Invalid URL: no filename" := by rfl
  exact ⟨h, by rw [h]; intro hc; exact absurd hc (by simp)⟩

/-- C7 amended: a returned filename is the non-empty, slash-free segment
after the last slash of the pre-query part of the URL, and the invalid-URL
error occurs exactly when that segment is empty — i.e. when the pre-query
part is empty or ends in a slash — even if earlier non-empty segments
exist. -/
theorem extract_filename_spec (url : String) :
    (∀ f, extract_filename url = .ok f →
      f.data ≠ [] ∧ (∀ c ∈ f.data, c ≠ '/') ∧ f.data <:+ pre_query url) ∧
    (extract_filename url = .error "Invalid URL: no filename" ↔
      (pre_query url).getLast? = some '/' ∨ pre_query url = []) := by
  constructor
  · intro f hf
    rw [extract_filename] at hf
    split at hf
    · exact absurd hf (by simp)
    case isFalse hne =>
      have hfd : f.data = last_segment (pre_query url) := by
        have := Except.ok.inj hf
        rw [← this]
      refine ⟨by rw [hfd]; exact hne, ?_, by rw [hfd]; exact last_segment_isSuffix _⟩
      intro c hc
      rw [hfd] at hc
      exact last_segment_no_slash _ c hc
  · rw [extract_filename, ← last_segment_eq_nil_iff]
    split
    · simp_all
    · simp_all

/-- C7 amended, witness at a concrete URL with a query string. -/
theorem extract_filename_spec_witness :
    ("b.img" : String).data ≠ [] ∧ (∀ c ∈ ("b.img" : String).data, c ≠ '/') ∧
      ("b.img" : String).data <:+ pre_query "https://h/a/b.img?x=1" :=
  (extract_filename_spec "https://h/a/b.img?x=1").1 "b.img" (by rfl)

/-- C10: `needs_decompression` lowercases the extension, so it accepts
"IMAGE.XZ", while `decompress_local_file` dispatches on case-sensitive
suffixes and rejects the same file with the unsupported-format error. -/
theorem needs_decompression_dispatch_mismatch :
    needs_decompression "IMAGE.XZ" = true ∧
    decompress_local_file ⟨false, 0, fun _ => .ok ()⟩ "IMAGE.XZ" =
      .error "Unsupported compression format for: IMAGE.XZ" := by
  refine ⟨by decide, by rfl⟩

end ArmbianImager

namespace ArmbianImager

/-! ## devices/windows.rs: device enumeration

The Win32 calls are abstracted into a `WinEnv` record holding, per physical
drive index, the outcome the corresponding native call returns: `CreateFileW`
(`open_result`, error code on failure), the drive-geometry IOCTL
(`geometry`, the queried disk size), the media-types IOCTL
(`read_only`), the storage-property IOCTL (`props`: bus-type byte and the
extracted model string), and per drive-letter index the volume-extents IOCTL
(`volumes`: disk numbers of the extents of that mounted letter, `none` when
the letter is absent or a call for it fails).  `boot_letter` is not read by
any embedded code path: it exists only so the specification-side predicate
`hosts_boot_volume` can be stated for the refinement comparison. -/

/-- `BlockDevice` from `src/src-tauri/src/devices/types.rs` as used by
`windows.rs`. -/
structure BlockDevice where
  path : String
  name : String
  size : ℕ
  size_formatted : String
  model : String
  is_removable : Bool
  is_system : Bool
  bus_type : Option String
  is_read_only : Bool
deriving DecidableEq

structure WinEnv where
  open_result : ℕ → Except ℕ Unit
  geometry : ℕ → Option ℕ
  read_only : ℕ → Bool
  props : ℕ → Option (ℕ × String)
  drives_mask_zero : Bool
  volumes : ℕ → Option (List ℕ)
  boot_letter : String

/-- The fixed bus-type table of `bus_type_to_string` in
`src/src-tauri/src/devices/windows.rs`. -/
def bus_type_map : List (String × ℕ) :=
  [("Unknown", 0), ("SCSI", 1), ("ATAPI", 2), ("ATA", 3), ("1394", 4),
   ("SSA", 5), ("Fibre", 6), ("USB", 7), ("RAID", 8), ("iSCSI", 9),
   ("SAS", 10), ("SATA", 11), ("SD", 12), ("MMC", 13), ("Virtual", 14),
   ("FileBacked", 15), ("Spaces", 16), ("NVMe", 17), ("SCM", 18),
   ("UFS", 19), ("NVMe-oF", 20)]

def bus_type_to_string (b : ℕ) : Option String :=
  (bus_type_map.find? fun p => p.2 == b).map fun p => p.1

/-- `query_device_properties`: open/IOCTL failure yields the defaults
("Physical Drive", not removable, no bus type); otherwise removability is
inferred from the bus type or, when the bus byte is unmapped, from the disk
index. -/
def query_device_properties (env : WinEnv) (disk_number : ℕ) :
    String × Bool × Option String :=
  match env.props disk_number with
  | none => ("Physical Drive", false, none)
  | some (bus_byte, raw_model) =>
    match bus_type_to_string bus_byte with
    | some bt =>
      ((if raw_model = "" then "Physical Drive" else raw_model),
       bt == "USB" || bt == "SD", some bt)
    | none =>
      ((if raw_model = "" then "Physical Drive" else raw_model),
       decide (0 < disk_number), none)

/-- The string `"A:"` .. `"Z:"` for letter index 0..25. -/
def drive_letter_string (i : ℕ) : String :=
  String.mk [Char.ofNat (65 + i), ':']

/-- `get_drive_letters_for_disk`: every mounted letter whose volume has an
extent on this disk; `none` when the mask query failed or no letter maps. -/
def get_drive_letters_for_disk (env : WinEnv) (disk_number : ℕ) :
    Option (List String) :=
  if env.drives_mask_zero then none
  else
    match (List.range 26).filterMap (fun i =>
      match env.volumes i with
      | some extent_disks =>
        if disk_number ∈ extent_disks then some (drive_letter_string i) else none
      | none => none) with
    | [] => none
    | ls => some ls

def physical_drive_path (n : ℕ) : String :=
  "\\\\.\\PhysicalDrive" ++ toString n

/-- The `BlockDevice` record pushed for a surviving disk index, fields
exactly as built in `get_block_devices` (lines 463-485): note
`is_system` is true precisely when the literal letter string `"C:"` occurs
among the mounted letters of this disk. -/
def mk_device (env : WinEnv) (n size : ℕ) : BlockDevice :=
  { path := physical_drive_path n
    name :=
      match get_drive_letters_for_disk env n with
      | some ls => "Disk " ++ toString n ++ " (" ++ String.intercalate ", " ls ++ ")"
      | none => "Disk " ++ toString n
    size := size
    size_formatted := format_size size
    model := (query_device_properties env n).1
    is_removable := (query_device_properties env n).2.1
    is_system :=
      match get_drive_letters_for_disk env n with
      | some ls => ls.any fun l => l == "C:"
      | none => false
    bus_type := (query_device_properties env n).2.2
    is_read_only := env.read_only n }

/-- The index loop of `get_block_devices`: consecutive open failures with
error codes 1/2/5/21 count toward an early exit after four; an open success
resets the counter; geometry failure or a zero size skips the disk. -/
def enum_loop (env : WinEnv) : List ℕ → ℕ → List BlockDevice
  | [], _ => []
  | n :: rest, errs =>
    match env.open_result n with
    | .error e =>
      if e = 1 ∨ e = 2 ∨ e = 5 ∨ e = 21 then
        if 4 ≤ errs + 1 then [] else enum_loop env rest (errs + 1)
      else enum_loop env rest (errs + 1)
    | .ok _ =>
      match env.geometry n with
      | none => enum_loop env rest 0
      | some size =>
        if size = 0 then enum_loop env rest 0
        else mk_device env n size :: enum_loop env rest 0

/-- `get_block_devices` from `src/src-tauri/src/devices/windows.rs`:
scan physical drive indices 0..31. -/
def get_block_devices (env : WinEnv) : List BlockDevice :=
  enum_loop env (List.range 32) 0

/-- Modelled from the spec: a device "hosts a volume backing the running OS"
when the boot volume letter is among its mounted drive letters (the
volume-to-disk-extent cross-reference described in section 4.5). -/
def hosts_boot_volume (env : WinEnv) (n : ℕ) : Prop :=
  env.boot_letter ∈ (get_drive_letters_for_disk env n).getD []

end ArmbianImager

namespace ArmbianImager

/-! ## flash/linux.rs: the Linux flash engine

`flash/mod.rs` and `flash/verify.rs` are not under `src/`; `unmount_device`,
`sync_device` and `verify::verify_data` are therefore modelled from the
specification (sections 4.6 and 5), while everything else follows
`src/src-tauri/src/flash/linux.rs` line by line.  `FlashEnv` carries the
outcome of each external call: the image metadata query, the unmount step,
the `pkexec dd` subprocess (`dd_output`: spawn error, or exit success flag
plus captured stderr), the direct device open for verification, the
`pkexec cat` fallback spawn, the image bytes and the read-back device
bytes.  `cancel t` is the value the shared `is_cancelled` flag holds at the
t-th poll. -/

inductive FlashPhase where
  | unmounting
  | writing
  | syncing
  | verifying
  | done
deriving DecidableEq

structure FlashEnv where
  image_size : Except String ℕ
  unmount_result : Except String Unit
  dd_output : Except String (Bool × String)
  direct_read_ok : Bool
  cat_spawn : Except String Unit
  image_bytes : List ℕ
  device_bytes : List ℕ
  cancel : ℕ → Bool

/-- Modelled from the spec: the fixed verify chunk size (the `config` module
is not under `src/`; the spec only requires a fixed chunk bounding
cancellation latency). -/
def verify_chunk_size : ℕ := 1024 * 1024

/-- Modelled from the spec: the chunked verify loop of `flash/verify.rs`
(not under `src/`): poll `is_cancelled` at every chunk boundary, compare the
next chunk of the source image with the next chunk read back from the
device, stop at the end of the image; mismatch is fatal.  The fuel is the
image length, which bounds the iteration count for a positive chunk size. -/
def verify_go (s : ℕ) (cancel : ℕ → Bool) :
    ℕ → List ℕ → List ℕ → ℕ → Except String Unit
  | 0, _, _, t => if cancel t then .error "Verification cancelled" else .ok ()
  | k + 1, image, device, t =>
    if cancel t then .error "Verification cancelled"
    else if image = [] then .ok ()
    else if image.take s = device.take s then
      verify_go s cancel k (image.drop s) (device.drop s) (t + 1)
    else .error "Verification failed: data mismatch"

def verify_data (cancel : ℕ → Bool) (image device : List ℕ) (t : ℕ) :
    Except String Unit :=
  verify_go verify_chunk_size cancel image.length image device t

/-- `verify_written_data` from `flash/linux.rs`: open the device directly,
or fall back to a `pkexec cat` pipe (its spawn/stdout failure message is
carried by the environment), then run the shared verify loop. -/
def verify_written_data (env : FlashEnv) : Except String Unit :=
  if env.direct_read_ok then
    verify_data env.cancel env.image_bytes env.device_bytes 0
  else
    match env.cat_spawn with
    | .error e => .error e
    | .ok _ => verify_data env.cancel env.image_bytes env.device_bytes 0

/-- `flash_image` from `src/src-tauri/src/flash/linux.rs`, with the phase
trace of the specification state machine recorded alongside the result.
The write runs as a single `pkexec dd` subprocess: no poll of the
cancellation flag occurs anywhere outside the verify loop. -/
def flash_image (env : FlashEnv) (verify : Bool) :
    Except String Unit × List FlashPhase :=
  match env.image_size with
  | .error e => (.error ("Failed to get image size: " ++ e), [])
  | .ok _ =>
    match env.unmount_result with
    | .error e => (.error e, [.unmounting])
    | .ok _ =>
      match env.dd_output with
      | .error e =>
        (.error ("Failed to start privileged write: " ++ e), [.unmounting, .writing])
      | .ok (status_success, stderr_text) =>
        if status_success then
          if verify then
            match verify_written_data env with
            | .error e => (.error e, [.unmounting, .writing, .syncing, .verifying])
            | .ok _ => (.ok (), [.unmounting, .writing, .syncing, .verifying, .done])
          else (.ok (), [.unmounting, .writing, .syncing, .done])
        else
          if decide ("dismissed".data <:+: stderr_text.data) ||
              decide ("Not authorized".data <:+: stderr_text.data) then
            (.error "Operation cancelled by user", [.unmounting, .writing])
          else
            (.error ("Flash failed: " ++ stderr_text), [.unmounting, .writing])

end ArmbianImager

namespace ArmbianImager

/-! ## Claim theorems: C8, C2 -/

/-- Every device the enumeration loop emits passed the `size == 0` skip. -/
theorem enum_loop_size_pos (env : WinEnv) :
    ∀ (l : List ℕ) (errs : ℕ) (d : BlockDevice), d ∈ enum_loop env l errs → 0 < d.size := by
  intro l
  induction l with
  | nil => intro errs d hd; simp [enum_loop] at hd
  | cons n rest ih =>
    intro errs d hd
    rw [enum_loop] at hd
    cases hopen : env.open_result n with
    | error e =>
      simp only [hopen] at hd
      by_cases he : e = 1 ∨ e = 2 ∨ e = 5 ∨ e = 21
      · rw [if_pos he] at hd
        by_cases hcnt : 4 ≤ errs + 1
        · rw [if_pos hcnt] at hd; simp at hd
        · rw [if_neg hcnt] at hd; exact ih _ d hd
      · rw [if_neg he] at hd; exact ih _ d hd
    | ok u =>
      simp only [hopen] at hd
      cases hg : env.geometry n with
      | none => simp only [hg] at hd; exact ih _ d hd
      | some size =>
        simp only [hg] at hd
        by_cases hz : size = 0
        · rw [if_pos hz] at hd; exact ih _ d hd
        · rw [if_neg hz] at hd
          rcases List.mem_cons.mp hd with hd | hd
          · rw [hd]; exact Nat.pos_of_ne_zero hz
          · exact ih _ d hd

/-- C8: every `BlockDevice` returned by the Windows enumerator has a
positive size — zero-size disks are filtered out. -/
theorem get_block_devices_size_pos (env : WinEnv) :
    ∀ d ∈ get_block_devices env, 0 < d.size := by
  intro d hd
  exact enum_loop_size_pos env (List.range 32) 0 d hd

/-- Environment used for the concrete device-enumeration checks: two disks;
volume `C:` lives on disk 1, the boot volume letter is `D:` and volume `D:`
lives on disk 0. -/
def win_env_cex : WinEnv :=
  { open_result := fun n => if n < 2 then .ok () else .error 2
    geometry := fun n => if n < 2 then some 4096 else none
    read_only := fun _ => false
    props := fun _ => some (7, "CexDisk")
    drives_mask_zero := false
    volumes := fun i => if i = 2 then some [1] else if i = 3 then some [0] else none
    boot_letter := "D:" }

def cex_disk0 : BlockDevice := mk_device win_env_cex 0 4096

/-- C8 witness: the concrete environment yields a device, and the theorem
applies to it. -/
theorem get_block_devices_size_pos_witness : 0 < cex_disk0.size :=
  get_block_devices_size_pos win_env_cex cex_disk0 (by decide)

/-- C2 counterexample: in `win_env_cex` the boot volume letter is `D:` and
disk 0 hosts it, yet the code marks disk 0 `is_system = false` (and marks
disk 1, which merely carries the letter `C:`, as the system disk): the
claimed iff with "hosts a volume backing the running OS" fails. -/
theorem is_system_boot_volume_cex :
    cex_disk0 ∈ get_block_devices win_env_cex ∧
    hosts_boot_volume win_env_cex 0 ∧
    cex_disk0.is_system = false ∧
    (get_block_devices win_env_cex).map BlockDevice.is_system = [false, true] := by
  refine ⟨by decide, by unfold hosts_boot_volume; decide, by decide, by decide⟩

/-- C2 amended: for every device the Windows enumerator returns,
`is_system` is true exactly when the literal drive letter `"C:"` is among
the letters mounted from that disk; the boot volume letter is never
queried. -/
theorem is_system_iff_letter_C (env : WinEnv) :
    ∀ d ∈ get_block_devices env, ∃ n,
      d.path = physical_drive_path n ∧
      (d.is_system = true ↔
        ∃ ls, get_drive_letters_for_disk env n = some ls ∧ "C:" ∈ ls) := by
  have hmk : ∀ n size, ((mk_device env n size).is_system = true ↔
      ∃ ls, get_drive_letters_for_disk env n = some ls ∧ "C:" ∈ ls) := by
    intro n size
    show (match get_drive_letters_for_disk env n with
      | some ls => ls.any fun l => l == "C:"
      | none => false) = true ↔ _
    cases hls : get_drive_letters_for_disk env n with
    | none => simp
    | some ls =>
      simp only [List.any_eq_true, beq_iff_eq, Option.some.injEq]
      constructor
      · rintro ⟨l, hl, rfl⟩
        exact ⟨ls, rfl, hl⟩
      · rintro ⟨ls2, rfl, hmem⟩
        exact ⟨"C:", hmem, rfl⟩
  have hloop : ∀ (l : List ℕ) (errs : ℕ) (d : BlockDevice), d ∈ enum_loop env l errs →
      ∃ n size, d = mk_device env n size := by
    intro l
    induction l with
    | nil => intro errs d hd; simp [enum_loop] at hd
    | cons n rest ih =>
      intro errs d hd
      rw [enum_loop] at hd
      cases hopen : env.open_result n with
      | error e =>
        simp only [hopen] at hd
        by_cases he : e = 1 ∨ e = 2 ∨ e = 5 ∨ e = 21
        · rw [if_pos he] at hd
          by_cases hcnt : 4 ≤ errs + 1
          · rw [if_pos hcnt] at hd; simp at hd
          · rw [if_neg hcnt] at hd; exact ih _ d hd
        · rw [if_neg he] at hd; exact ih _ d hd
      | ok u =>
        simp only [hopen] at hd
        cases hg : env.geometry n with
        | none => simp only [hg] at hd; exact ih _ d hd
        | some size =>
          simp only [hg] at hd
          by_cases hz : size = 0
          · rw [if_pos hz] at hd; exact ih _ d hd
          · rw [if_neg hz] at hd
            rcases List.mem_cons.mp hd with hd | hd
            · exact ⟨n, size, hd⟩
            · exact ih _ d hd
  intro d hd
  obtain ⟨n, size, rfl⟩ := hloop (List.range 32) 0 d hd
  exact ⟨n, rfl, hmk n size⟩

/-- C2 amended, witness: the concrete disk-0 device instantiates the
theorem. -/
theorem is_system_iff_letter_C_witness :
    ∃ n, cex_disk0.path = physical_drive_path n ∧
      (cex_disk0.is_system = true ↔
        ∃ ls, get_drive_letters_for_disk win_env_cex n = some ls ∧ "C:" ∈ ls) :=
  is_system_iff_letter_C win_env_cex cex_disk0 (by decide)

end ArmbianImager

namespace ArmbianImager

/-! ## Claim theorems: C1, C6 -/

/-- Environment for the concrete flash runs: a valid 3-byte image, a
successful unmount and `dd`, and a cancellation flag that is set from the
very start of the operation. -/
def flash_env_cex : FlashEnv :=
  { image_size := .ok 3
    unmount_result := .ok ()
    dd_output := .ok (true, "")
    direct_read_ok := true
    cat_spawn := .ok ()
    image_bytes := [1, 2, 3]
    device_bytes := [1, 2, 3]
    cancel := fun _ => true }

/-- C1 counterexample: the cancellation flag is set during the whole run,
including the entire Writing phase, yet the Linux flash (without verify)
runs to completion and returns success — the write loop never polls the
flag, so cancellation is not observed and the operation does not stop. -/
theorem flash_write_ignores_cancel_cex :
    (∀ t, flash_env_cex.cancel t = true) ∧
    flash_image flash_env_cex false =
      (.ok (), [.unmounting, .writing, .syncing, .done]) := by
  exact ⟨fun _ => rfl, by rfl⟩

/-- C1 amended: on Linux the Writing phase is a single privileged `dd`
subprocess and polls no cancellation flag — the whole non-verify flash is
independent of the flag — while the Verifying read-back loop polls the flag
at every chunk boundary and stops with a cancellation error as soon as it
observes it set. -/
theorem flash_cancellation_amended :
    (∀ (env : FlashEnv) (c : ℕ → Bool),
      flash_image { env with cancel := c } false = flash_image env false) ∧
    (∀ (c : ℕ → Bool) (k : ℕ) (image device : List ℕ) (t : ℕ),
      c t = true →
      verify_go verify_chunk_size c k image device t = .error "Verification cancelled") := by
  constructor
  · intro env c
    rcases env with ⟨isz, unm, dd, dro, cat, ib, db, cn⟩
    rcases isz with e | n
    · rfl
    rcases unm with e | u
    · rfl
    rcases dd with e | ⟨b, s⟩
    · rfl
    rcases b <;> rfl
  · intro c k image device t h
    cases k with
    | zero => simp [verify_go, h]
    | succ m => simp [verify_go, h]

/-- C1 amended, witness. -/
theorem flash_cancellation_amended_witness :
    flash_image { flash_env_cex with cancel := fun _ => false } false =
      flash_image flash_env_cex false ∧
    verify_go verify_chunk_size (fun _ => true) 3 [1] [2] 0 =
      .error "Verification cancelled" :=
  ⟨flash_cancellation_amended.1 flash_env_cex (fun _ => false),
   flash_cancellation_amended.2 (fun _ => true) 3 [1] [2] 0 rfl⟩

/-- A mismatch inside the compared range makes the verify loop fail, for any
positive chunk size, when no cancellation occurs. -/
theorem verify_go_mismatch (s : ℕ) (hs : 0 < s) (c : ℕ → Bool)
    (hc : ∀ t, c t = false) :
    ∀ (k : ℕ) (image device : List ℕ) (t i : ℕ),
      image.length ≤ k → i < image.length → image[i]? ≠ device[i]? →
      verify_go s c k image device t = .error "Verification failed: data mismatch" := by
  intro k
  induction k with
  | zero =>
    intro image device t i hk hi _
    omega
  | succ m ih =>
    intro image device t i hk hi hne
    have hnil : image ≠ [] := by
      intro h0
      rw [h0] at hi
      simp at hi
    rw [verify_go, hc t, if_neg (by simp), if_neg hnil]
    by_cases heq : image.take s = device.take s
    · rw [if_pos heq]
      have his : s ≤ i := by
        by_contra hlt
        push_neg at hlt
        have h1 : (image.take s)[i]? = image[i]? := List.getElem?_take_of_lt hlt
        have h2 : (device.take s)[i]? = device[i]? := List.getElem?_take_of_lt hlt
        rw [heq] at h1
        exact hne (h1 ▸ h2 ▸ rfl)
      apply ih (image.drop s) (device.drop s) (t + 1) (i - s)
      · rw [List.length_drop]; omega
      · rw [List.length_drop]; omega
      · rw [List.getElem?_drop, List.getElem?_drop]
        have : s + (i - s) = i := by omega
        rw [this]
        exact hne
    · rw [if_neg heq]

/-- C6: without `verify` the flash never enters the Verifying phase and
succeeds once the write and sync complete; with `verify` and a read-back
that differs from the source image inside the compared range, the result is
the verification-mismatch error, never success. -/
theorem flash_verify_spec (env : FlashEnv) (n : ℕ) (serr : String)
    (hsz : env.image_size = .ok n) (hun : env.unmount_result = .ok ())
    (hdd : env.dd_output = .ok (true, serr)) :
    (flash_image env false = (.ok (), [.unmounting, .writing, .syncing, .done]) ∧
      FlashPhase.verifying ∉ (flash_image env false).2) ∧
    (env.direct_read_ok = true → (∀ t, env.cancel t = false) →
      (∃ i, i < env.image_bytes.length ∧ env.image_bytes[i]? ≠ env.device_bytes[i]?) →
      (flash_image env true).1 = .error "Verification failed: data mismatch") := by
  have hfalse : flash_image env false = (.ok (), [.unmounting, .writing, .syncing, .done]) := by
    simp [flash_image, hsz, hun, hdd]
  refine ⟨⟨hfalse, by rw [hfalse]; decide⟩, ?_⟩
  intro hdro hc ⟨i, hi, hne⟩
  have hv : verify_written_data env = .error "Verification failed: data mismatch" := by
    rw [verify_written_data, if_pos hdro, verify_data]
    exact verify_go_mismatch verify_chunk_size (by decide) env.cancel hc
      env.image_bytes.length env.image_bytes env.device_bytes 0 i le_rfl hi hne
  simp [flash_image, hsz, hun, hdd, hv]

/-- Environment for the C6 witness: read-back differs at index 2. -/
def flash_env_w : FlashEnv :=
  { image_size := .ok 3
    unmount_result := .ok ()
    dd_output := .ok (true, "")
    direct_read_ok := true
    cat_spawn := .ok ()
    image_bytes := [1, 2, 3]
    device_bytes := [1, 2, 4]
    cancel := fun _ => false }

/-- C6 witness. -/
theorem flash_verify_spec_witness :
    (flash_image flash_env_w false).1 = .ok () ∧
    (flash_image flash_env_w true).1 = .error "Verification failed: data mismatch" := by
  have h := flash_verify_spec flash_env_w 3 "" rfl rfl rfl
  exact ⟨by rw [h.1.1], h.2 rfl (fun _ => rfl) ⟨2, by decide, by decide⟩⟩

end ArmbianImager

namespace ArmbianImager

/-! ## download.rs: the download engine

`DlEnv` carries the outcome of every external call `download_image` makes:
the cache lookup (`cache.rs` is not under `src/`; modelled from the spec and
the call-site comment as an existence check that touches the mtime of the
hit), directory/client/temp-file creation, the HTTP send (status flag,
status text and the stream of received chunks, each a transport error or a
byte chunk), the per-chunk temp-file writes, the GitHub digest lookup, the
sidecar `.sha` fetch (its body on success, the already-formatted
transport/status error otherwise), an opaque SHA-256 function, the XZ
decompression calls, and the final rename.  `DlFs` tracks existence of the
`<filename>.downloading` temp file and of the file at the final output path
(absent initially: a cache miss means no file of that name is in the cache
directory the output path points into), plus effect counters and the list
of mtime touches. -/

structure HttpResp where
  status_ok : Bool
  status : String
  chunks : List (Except String (List ℕ))

structure DlEnv where
  cache_lookup : String → Option String
  output_dir : String
  create_dir_err : Option String
  client_err : Option String
  send : Except String HttpResp
  temp_create_err : Option String
  write_err : ℕ → Option String
  github_digest : Option String
  sha_fetch : Except String String
  sha256 : List ℕ → String
  xz_open_err : Option String
  xz_decoder_err : Option String
  out_create_err : Option String
  decomp_reads : List (Except String (List ℕ))
  decomp_write_err : ℕ → Option String
  flush_err : Option String
  rename_err : Option String
  cancel : ℕ → Bool

structure DlFs where
  temp_exists : Bool
  output_exists : Bool
  net_calls : ℕ
  fs_writes : ℕ
  touched : List String
deriving DecidableEq

structure DlResult where
  result : Except String String
  fs : DlFs

/-- The network receive loop of `download_image` (download.rs lines
307-323): poll the cancellation flag once per received stream item; on
cancellation drop and delete the temp file; a transport error or a chunk
write error aborts with the temp file left in place. -/
def dl_stream_loop (cancel : ℕ → Bool) (write_err : ℕ → Option String) :
    List (Except String (List ℕ)) → ℕ → ℕ → DlFs → Except String Unit × ℕ × DlFs
  | [], _, t, fs => (.ok (), t, fs)
  | c :: rest, i, t, fs =>
    if cancel t then (.error "Download cancelled", t + 1, { fs with temp_exists := false })
    else
      match c with
      | .error e => (.error ("Download error: " ++ e), t + 1, fs)
      | .ok _ =>
        match write_err i with
        | some m => (.error ("Failed to write chunk: " ++ m), t + 1, fs)
        | none =>
          dl_stream_loop cancel write_err rest (i + 1) (t + 1)
            { fs with fs_writes := fs.fs_writes + 1 }

/-- The hashing loop of `calculate_file_sha256` (download.rs lines 147-171):
8192-byte chunks, the flag polled at the top of every iteration including
the final zero-read one.  The argument is the remaining chunk count. -/
def sha_hash_loop (cancel : ℕ → Bool) : ℕ → ℕ → Except String Unit × ℕ
  | 0, t =>
    if cancel t then (.error "SHA256 verification cancelled", t + 1) else (.ok (), t + 1)
  | m + 1, t =>
    if cancel t then (.error "SHA256 verification cancelled", t + 1)
    else sha_hash_loop cancel m (t + 1)

/-- Number of 8192-byte reads for a file of the given length. -/
def sha_chunk_count (len : ℕ) : ℕ := (len + 8191) / 8192

/-- `calculate_file_sha256`: run the polling loop over the file, then
produce the digest of the whole content via the opaque hash function. -/
def calculate_file_sha256 (shafn : List ℕ → String) (cancel : ℕ → Bool)
    (content : List ℕ) (t : ℕ) : Except String String × ℕ :=
  match sha_hash_loop cancel (sha_chunk_count content.length) t with
  | (.ok _, t2) => (.ok (shafn content), t2)
  | (.error e, t2) => (.error e, t2)

/-- The expected-digest selection of `verify_sha256` (download.rs lines
196-204), with the count of digest-source fetches it performs. -/
def get_expected_sha (env : DlEnv) (filename url : String) (sha_url : Option String) :
    Except String String × ℕ :=
  if is_github_url url then
    (match env.github_digest with
     | some h => .ok h
     | none => .error ("No SHA256 digest found for file: " ++ filename), 1)
  else
    match sha_url with
    | some _ => (env.sha_fetch.bind parse_sha_content, 1)
    | none => (.error "No SHA verification method available", 0)

/-- `verify_sha256` from download.rs lines 182-228: poll, fetch the expected
digest, poll again, hash the temp file with per-chunk polling, compare. -/
def verify_sha256 (env : DlEnv) (filename url : String) (sha_url : Option String)
    (content : List ℕ) (t : ℕ) : Except String Unit × ℕ × ℕ :=
  if env.cancel t then (.error "SHA256 verification cancelled", t + 1, 0)
  else
    match get_expected_sha env filename url sha_url with
    | (.error e, net) => (.error e, t + 1, net)
    | (.ok expected, net) =>
      if env.cancel (t + 1) then (.error "SHA256 verification cancelled", t + 2, net)
      else
        match calculate_file_sha256 env.sha256 env.cancel content (t + 2) with
        | (.error e, t2) => (.error e, t2, net)
        | (.ok actual, t2) =>
          if expected = actual then (.ok (), t2, net)
          else (.error ("SHA256 mismatch: expected " ++ expected ++ ", got " ++ actual), t2, net)

/-- The copy loop of `decompress_with_reader_mt` (decompress.rs lines
107-131): poll once per iteration (including the final zero-read one); on
cancellation delete the partial output file; a read or write error leaves
the partial output in place; at end of stream, flush. -/
def decompress_loop (cancel : ℕ → Bool) (fmt : String) (write_err : ℕ → Option String)
    (flush_err : Option String) :
    List (Except String (List ℕ)) → ℕ → ℕ → DlFs → Except String Unit × ℕ × DlFs
  | [], _, t, fs =>
    if cancel t then (.error "Decompression cancelled", t + 1, { fs with output_exists := false })
    else
      match flush_err with
      | some e => (.error ("Failed to flush output: " ++ e), t + 1, fs)
      | none => (.ok (), t + 1, fs)
  | r :: rest, i, t, fs =>
    if cancel t then (.error "Decompression cancelled", t + 1, { fs with output_exists := false })
    else
      match r with
      | .error e => (.error (fmt ++ " decompression error: " ++ e), t + 1, fs)
      | .ok _ =>
        match write_err i with
        | some e => (.error ("Failed to write decompressed data: " ++ e), t + 1, fs)
        | none =>
          decompress_loop cancel fmt write_err flush_err rest (i + 1) (t + 1)
            { fs with fs_writes := fs.fs_writes + 1 }

/-- `decompress_with_reader_mt` (decompress.rs lines 94-132): create the
output file, then run the copy loop. -/
def decompress_with_reader_mt (env : DlEnv) (fmt : String) (t : ℕ) (fs : DlFs) :
    Except String Unit × ℕ × DlFs :=
  match env.out_create_err with
  | some e => (.error ("Failed to create output file: " ++ e), t, fs)
  | none =>
    decompress_loop env.cancel fmt env.decomp_write_err env.flush_err env.decomp_reads 0 t
      { fs with output_exists := true, fs_writes := fs.fs_writes + 1 }

/-- `decompress_with_rust_xz` (decompress.rs lines 31-51): open the input,
create the multi-threaded XZ decoder, then the generic copy loop. -/
def decompress_with_rust_xz (env : DlEnv) (t : ℕ) (fs : DlFs) :
    Except String Unit × ℕ × DlFs :=
  match env.xz_open_err with
  | some e => (.error ("Failed to open input file: " ++ e), t, fs)
  | none =>
    match env.xz_decoder_err with
    | some e => (.error ("Failed to create XZ decoder: " ++ e), t, fs)
    | none => decompress_with_reader_mt env "xz" t fs

/-- The bytes written into the temp file: concatenation of the received
chunks (used only once the stream loop has succeeded, i.e. every chunk
arrived). -/
def downloaded_content (chunks : List (Except String (List ℕ))) : List ℕ :=
  (chunks.filterMap fun c => c.toOption).flatten

/-- The post-verification tail of `download_image` (download.rs lines
357-379): decompress the temp file into the output path and delete the temp
file on success, leaving it in place on a decompression error; or, for a
non-xz filename, rename the temp file onto the output path. -/
def dl_finish (env : DlEnv) (filename : String) (t : ℕ) (fs : DlFs) : DlResult :=
  if ends_with filename ".xz" then
    match decompress_with_rust_xz env t fs with
    | (.error e, _, fs4) => ⟨.error e, fs4⟩
    | (.ok _, _, fs4) =>
      ⟨.ok (env.output_dir ++ "/" ++ trim_end_matches filename ".xz"),
        { fs4 with temp_exists := false }⟩
  else
    match env.rename_err with
    | some e => ⟨.error ("Failed to move file: " ++ e), fs⟩
    | none =>
      ⟨.ok (env.output_dir ++ "/" ++ trim_end_matches filename ".xz"),
        { fs with temp_exists := false, output_exists := true }⟩

/-- `download_image` from `src/src-tauri/src/download.rs` (lines 233-380):
extract the filename, consult the cache with the decompressed name (early
return on a hit), create the directory and client, send the request, check
the status, create the temp file, run the receive loop, verify the digest
when a method is available (deleting the temp file on any verification
failure, reporting cancellation when the flag is set), then decompress or
rename into place. -/
def download_image (env : DlEnv) (url : String) (sha_url : Option String) : DlResult :=
  match extract_filename url with
  | .error e => ⟨.error e, ⟨false, false, 0, 0, []⟩⟩
  | .ok filename =>
    match env.cache_lookup (trim_end_matches filename ".xz") with
    | some cached => ⟨.ok cached, ⟨false, true, 0, 0, [cached]⟩⟩
    | none =>
      match env.create_dir_err with
      | some e => ⟨.error ("Failed to create output directory: " ++ e), ⟨false, false, 0, 0, []⟩⟩
      | none =>
        match env.client_err with
        | some e => ⟨.error ("Failed to create HTTP client: " ++ e), ⟨false, false, 0, 1, []⟩⟩
        | none =>
          match env.send with
          | .error e => ⟨.error ("Failed to start download: " ++ e), ⟨false, false, 1, 1, []⟩⟩
          | .ok resp =>
            if resp.status_ok = false then
              ⟨.error ("Download failed with status: " ++ resp.status), ⟨false, false, 1, 1, []⟩⟩
            else
              match env.temp_create_err with
              | some e => ⟨.error ("Failed to create temp file: " ++ e), ⟨false, false, 1, 1, []⟩⟩
              | none =>
                match dl_stream_loop env.cancel env.write_err resp.chunks 0 0
                    ⟨true, false, 1, 2, []⟩ with
                | (.error e, _, fs2) => ⟨.error e, fs2⟩
                | (.ok _, t2, fs2) =>
                  if is_github_url url || sha_url.isSome then
                    match verify_sha256 env filename url sha_url
                        (downloaded_content resp.chunks) t2 with
                    | (.error e, t3, net) =>
                      if env.cancel t3 then
                        ⟨.error "Download cancelled",
                          { fs2 with temp_exists := false, net_calls := fs2.net_calls + net }⟩
                      else
                        ⟨.error ("SHA256 verification failed: " ++ e),
                          { fs2 with temp_exists := false, net_calls := fs2.net_calls + net }⟩
                    | (.ok _, t3, net) =>
                      dl_finish env filename t3 { fs2 with net_calls := fs2.net_calls + net }
                  else
                    dl_finish env filename t2 fs2

end ArmbianImager

namespace ArmbianImager

/-! ## Message-disambiguation helpers -/

/-- A string with a fixed prefix differs from a fixed string whose start
differs from that prefix. -/
theorem string_append_ne (a b : String)
    (h : b.data.take a.data.length ≠ a.data) : ∀ m, a ++ m ≠ b := by
  intro m he
  apply h
  rw [← he, String.data_append]
  exact List.take_left a.data m.data

/-- Two strings with fixed prefixes that differ within the first `k`
characters are different whatever their suffixes. -/
theorem string_append_ne_append (a b : String) (k : ℕ)
    (ha : k ≤ a.data.length) (hb : k ≤ b.data.length)
    (h : a.data.take k ≠ b.data.take k) : ∀ m m2, a ++ m ≠ b ++ m2 := by
  intro m m2 he
  apply h
  have h2 := congrArg (fun s : String => s.data.take k) he
  simp only [String.data_append] at h2
  rw [List.take_append_of_le_length ha, List.take_append_of_le_length hb] at h2
  exact h2

/-! ## Loop specification lemmas -/

/-- The network receive loop never touches the output file, deletes the
temp file exactly on the cancellation result, and produces one of four
results. -/
theorem dl_stream_loop_spec (cancel : ℕ → Bool) (we : ℕ → Option String) :
    ∀ (chunks : List (Except String (List ℕ))) (i t : ℕ) (fs : DlFs),
      ((dl_stream_loop cancel we chunks i t fs).2.2.output_exists = fs.output_exists) ∧
      ((dl_stream_loop cancel we chunks i t fs).1 = .error "Download cancelled" →
        (dl_stream_loop cancel we chunks i t fs).2.2.temp_exists = false) ∧
      ((dl_stream_loop cancel we chunks i t fs).1 ≠ .error "Download cancelled" →
        (dl_stream_loop cancel we chunks i t fs).2.2.temp_exists = fs.temp_exists) ∧
      ((dl_stream_loop cancel we chunks i t fs).1 = .ok () ∨
        (dl_stream_loop cancel we chunks i t fs).1 = .error "Download cancelled" ∨
        (∃ m, (dl_stream_loop cancel we chunks i t fs).1 = .error ("Download error: " ++ m)) ∨
        (∃ m, (dl_stream_loop cancel we chunks i t fs).1 =
          .error ("Failed to write chunk: " ++ m))) := by
  intro chunks
  induction chunks with
  | nil =>
    intro i t fs
    exact ⟨rfl, fun h => absurd h (by simp [dl_stream_loop]), fun _ => rfl, Or.inl rfl⟩
  | cons c rest ih =>
    intro i t fs
    by_cases hc : cancel t = true
    · have hstep : dl_stream_loop cancel we (c :: rest) i t fs =
          (.error "Download cancelled", t + 1, { fs with temp_exists := false }) := by
        simp [dl_stream_loop, hc]
      rw [hstep]
      exact ⟨rfl, fun _ => rfl, fun h => absurd rfl h, Or.inr (Or.inl rfl)⟩
    · have hc2 : cancel t = false := by simpa using hc
      cases c with
      | error e =>
        have hstep : dl_stream_loop cancel we (.error e :: rest) i t fs =
            (.error ("Download error: " ++ e), t + 1, fs) := by
          simp [dl_stream_loop, hc2]
        rw [hstep]
        refine ⟨rfl, fun h => ?_, fun _ => rfl, Or.inr (Or.inr (Or.inl ⟨e, rfl⟩))⟩
        exact absurd (Except.error.inj h)
          (string_append_ne "Download error: " "Download cancelled" (by decide) e)
      | ok data =>
        cases hwe : we i with
        | some m =>
          have hstep : dl_stream_loop cancel we (.ok data :: rest) i t fs =
              (.error ("Failed to write chunk: " ++ m), t + 1, fs) := by
            simp [dl_stream_loop, hc2, hwe]
          rw [hstep]
          refine ⟨rfl, fun h => ?_, fun _ => rfl, Or.inr (Or.inr (Or.inr ⟨m, rfl⟩))⟩
          exact absurd (Except.error.inj h)
            (string_append_ne "Failed to write chunk: " "Download cancelled" (by decide) m)
        | none =>
          have hstep : dl_stream_loop cancel we (.ok data :: rest) i t fs =
              dl_stream_loop cancel we rest (i + 1) (t + 1)
                { fs with fs_writes := fs.fs_writes + 1 } := by
            simp [dl_stream_loop, hc2, hwe]
          rw [hstep]
          obtain ⟨ha, hb, hcc, hd⟩ := ih (i + 1) (t + 1) { fs with fs_writes := fs.fs_writes + 1 }
          exact ⟨ha, hb, hcc, hd⟩

/-- The decompression copy loop never touches the temp file, deletes the
partial output exactly on the cancellation result, and produces one of five
results.  The read-error message disambiguation is a parameter because the
format name is. -/
theorem decompress_loop_spec (cancel : ℕ → Bool) (fmt : String) (we : ℕ → Option String)
    (fe : Option String)
    (hfmt : ∀ m, (fmt ++ " decompression error: ") ++ m ≠ "Decompression cancelled") :
    ∀ (reads : List (Except String (List ℕ))) (i t : ℕ) (fs : DlFs),
      ((decompress_loop cancel fmt we fe reads i t fs).2.2.temp_exists = fs.temp_exists) ∧
      ((decompress_loop cancel fmt we fe reads i t fs).1 = .error "Decompression cancelled" →
        (decompress_loop cancel fmt we fe reads i t fs).2.2.output_exists = false) ∧
      ((decompress_loop cancel fmt we fe reads i t fs).1 ≠ .error "Decompression cancelled" →
        (decompress_loop cancel fmt we fe reads i t fs).2.2.output_exists = fs.output_exists) ∧
      ((decompress_loop cancel fmt we fe reads i t fs).1 = .ok () ∨
        (decompress_loop cancel fmt we fe reads i t fs).1 = .error "Decompression cancelled" ∨
        (∃ m, (decompress_loop cancel fmt we fe reads i t fs).1 =
          .error ("Failed to flush output: " ++ m)) ∨
        (∃ m, (decompress_loop cancel fmt we fe reads i t fs).1 =
          .error ((fmt ++ " decompression error: ") ++ m)) ∨
        (∃ m, (decompress_loop cancel fmt we fe reads i t fs).1 =
          .error ("Failed to write decompressed data: " ++ m))) := by
  intro reads
  induction reads with
  | nil =>
    intro i t fs
    by_cases hc : cancel t = true
    · have hstep : decompress_loop cancel fmt we fe [] i t fs =
          (.error "Decompression cancelled", t + 1, { fs with output_exists := false }) := by
        simp [decompress_loop, hc]
      rw [hstep]
      exact ⟨rfl, fun _ => rfl, fun h => absurd rfl h, Or.inr (Or.inl rfl)⟩
    · have hc2 : cancel t = false := by simpa using hc
      cases fe with
      | some e =>
        have hstep : decompress_loop cancel fmt we (some e) [] i t fs =
            (.error ("Failed to flush output: " ++ e), t + 1, fs) := by
          simp [decompress_loop, hc2]
        rw [hstep]
        refine ⟨rfl, fun h => ?_, fun _ => rfl, Or.inr (Or.inr (Or.inl ⟨e, rfl⟩))⟩
        exact absurd (Except.error.inj h)
          (string_append_ne "Failed to flush output: " "Decompression cancelled" (by decide) e)
      | none =>
        have hstep : decompress_loop cancel fmt we none [] i t fs = (.ok (), t + 1, fs) := by
          simp [decompress_loop, hc2]
        rw [hstep]
        exact ⟨rfl, fun h => absurd h (by simp), fun _ => rfl, Or.inl rfl⟩
  | cons r rest ih =>
    intro i t fs
    by_cases hc : cancel t = true
    · have hstep : decompress_loop cancel fmt we fe (r :: rest) i t fs =
          (.error "Decompression cancelled", t + 1, { fs with output_exists := false }) := by
        simp [decompress_loop, hc]
      rw [hstep]
      exact ⟨rfl, fun _ => rfl, fun h => absurd rfl h, Or.inr (Or.inl rfl)⟩
    · have hc2 : cancel t = false := by simpa using hc
      cases r with
      | error e =>
        have hstep : decompress_loop cancel fmt we fe (.error e :: rest) i t fs =
            (.error ((fmt ++ " decompression error: ") ++ e), t + 1, fs) := by
          simp [decompress_loop, hc2]
        rw [hstep]
        refine ⟨rfl, fun h => ?_, fun _ => rfl,
          Or.inr (Or.inr (Or.inr (Or.inl ⟨e, rfl⟩)))⟩
        exact absurd (Except.error.inj h) (hfmt e)
      | ok data =>
        cases hwe : we i with
        | some m =>
          have hstep : decompress_loop cancel fmt we fe (.ok data :: rest) i t fs =
              (.error ("Failed to write decompressed data: " ++ m), t + 1, fs) := by
            simp [decompress_loop, hc2, hwe]
          rw [hstep]
          refine ⟨rfl, fun h => ?_, fun _ => rfl,
            Or.inr (Or.inr (Or.inr (Or.inr ⟨m, rfl⟩)))⟩
          exact absurd (Except.error.inj h)
            (string_append_ne "Failed to write decompressed data: "
              "Decompression cancelled" (by decide) m)
        | none =>
          have hstep : decompress_loop cancel fmt we fe (.ok data :: rest) i t fs =
              decompress_loop cancel fmt we fe rest (i + 1) (t + 1)
                { fs with fs_writes := fs.fs_writes + 1 } := by
            simp [decompress_loop, hc2, hwe]
          rw [hstep]
          exact ih (i + 1) (t + 1) { fs with fs_writes := fs.fs_writes + 1 }

end ArmbianImager

namespace ArmbianImager

/-- Like `string_append_ne`, but comparing only the first `k` characters. -/
theorem string_append_ne_take (a b : String) (k : ℕ) (ha : k ≤ a.data.length)
    (h : a.data.take k ≠ b.data.take k) : ∀ m, a ++ m ≠ b := by
  intro m he
  apply h
  have h2 := congrArg (fun s : String => s.data.take k) he
  simp only [String.data_append] at h2
  rw [List.take_append_of_le_length ha] at h2
  exact h2

/-- An error message with one of the decompression-stage prefixes is none of
the three main-engine messages that drive the cleanup analysis. -/
theorem append_ne_trio (a : String) (ha : 1 ≤ a.data.length)
    (h1 : a.data.take 1 ≠ "Download cancelled".data.take 1)
    (h3 : a.data.take 1 ≠ "SHA256 verification failed: ".data.take 1) :
    ∀ m, (a ++ m ≠ "Download cancelled") ∧
      (∀ m2, a ++ m ≠ "Download error: " ++ m2) ∧
      (∀ m2, a ++ m ≠ "SHA256 verification failed: " ++ m2) := by
  intro m
  refine ⟨string_append_ne_take a "Download cancelled" 1 ha h1 m,
    fun m2 => string_append_ne_append a "Download error: " 1 ha (by decide) h1 m m2,
    fun m2 => string_append_ne_append a "SHA256 verification failed: " 1 ha (by decide) h3 m m2⟩

/-- The trio of disambiguations for the constant cancellation message of the
decompression loop. -/
theorem decompression_cancelled_trio :
    ("Decompression cancelled" : String) ≠ "Download cancelled" ∧
    (∀ m, ("Decompression cancelled" : String) ≠ "Download error: " ++ m) ∧
    (∀ m, ("Decompression cancelled" : String) ≠ "SHA256 verification failed: " ++ m) := by
  refine ⟨by decide, fun m h => ?_, fun m h => ?_⟩
  · exact string_append_ne "Download error: " "Decompression cancelled" (by decide) m h.symm
  · exact string_append_ne "SHA256 verification failed: " "Decompression cancelled"
      (by decide) m h.symm

/-- `decompress_with_rust_xz` leaves the temp file alone, deletes the
partial output exactly on cancellation, and none of its error messages is
one of the three main-engine messages. -/
theorem decompress_with_rust_xz_spec (env : DlEnv) (t : ℕ) (fs : DlFs) :
    ((decompress_with_rust_xz env t fs).2.2.temp_exists = fs.temp_exists) ∧
    ((decompress_with_rust_xz env t fs).1 = .error "Decompression cancelled" →
      (decompress_with_rust_xz env t fs).2.2.output_exists = false) ∧
    (∀ e, (decompress_with_rust_xz env t fs).1 = .error e →
      e ≠ "Download cancelled" ∧ (∀ m, e ≠ "Download error: " ++ m) ∧
      (∀ m, e ≠ "SHA256 verification failed: " ++ m)) := by
  rw [decompress_with_rust_xz]
  cases hop : env.xz_open_err with
  | some e0 =>
    simp only [hop]
    refine ⟨trivial, fun h => ?_, fun e he => ?_⟩
    · exact absurd (Except.error.inj h)
        (string_append_ne "Failed to open input file: " "Decompression cancelled" (by decide) e0)
    · rw [← Except.error.inj he]
      exact append_ne_trio "Failed to open input file: " (by decide) (by decide) (by decide) e0
  | none =>
    simp only [hop]
    cases hdc : env.xz_decoder_err with
    | some e0 =>
      simp only [hdc]
      refine ⟨trivial, fun h => ?_, fun e he => ?_⟩
      · exact absurd (Except.error.inj h)
          (string_append_ne "Failed to create XZ decoder: " "Decompression cancelled"
            (by decide) e0)
      · rw [← Except.error.inj he]
        exact append_ne_trio "Failed to create XZ decoder: " (by decide) (by decide) (by decide) e0
    | none =>
      simp only [hdc]
      rw [decompress_with_reader_mt]
      cases hoc : env.out_create_err with
      | some e0 =>
        simp only [hoc]
        refine ⟨trivial, fun h => ?_, fun e he => ?_⟩
        · exact absurd (Except.error.inj h)
            (string_append_ne "Failed to create output file: " "Decompression cancelled"
              (by decide) e0)
        · rw [← Except.error.inj he]
          exact append_ne_trio "Failed to create output file: " (by decide) (by decide)
            (by decide) e0
      | none =>
        simp only [hoc]
        obtain ⟨la, lb, lc, ld⟩ := decompress_loop_spec env.cancel "xz" env.decomp_write_err
          env.flush_err
          (string_append_ne ("xz" ++ " decompression error: ") "Decompression cancelled"
            (by decide))
          env.decomp_reads 0 t { fs with output_exists := true, fs_writes := fs.fs_writes + 1 }
        refine ⟨la, lb, fun e he => ?_⟩
        rcases ld with hd | hd | ⟨m, hd⟩ | ⟨m, hd⟩ | ⟨m, hd⟩
        · rw [hd] at he; exact absurd he (by simp)
        · rw [hd] at he
          rw [← Except.error.inj he]
          exact decompression_cancelled_trio
        · rw [hd] at he
          rw [← Except.error.inj he]
          exact append_ne_trio "Failed to flush output: " (by decide) (by decide) (by decide) m
        · rw [hd] at he
          rw [← Except.error.inj he]
          exact append_ne_trio ("xz" ++ " decompression error: ") (by decide) (by decide)
            (by decide) m
        · rw [hd] at he
          rw [← Except.error.inj he]
          exact append_ne_trio "Failed to write decompressed data: " (by decide) (by decide)
            (by decide) m

/-- `dl_finish` never reports the two cancellation messages of the earlier
stages nor a transport-error or verification-failure message, deletes the
partial decompression output exactly on decompression cancellation, and
preserves the temp file on every error. -/
theorem dl_finish_spec (env : DlEnv) (filename : String) (t : ℕ) (fs : DlFs) :
    ((dl_finish env filename t fs).result ≠ .error "Download cancelled") ∧
    ((dl_finish env filename t fs).result = .error "Decompression cancelled" →
      (dl_finish env filename t fs).fs.output_exists = false) ∧
    (∀ m, (dl_finish env filename t fs).result ≠ .error ("Download error: " ++ m)) ∧
    (∀ m, (dl_finish env filename t fs).result ≠ .error ("SHA256 verification failed: " ++ m)) ∧
    (∀ e, (dl_finish env filename t fs).result = .error e →
      (dl_finish env filename t fs).fs.temp_exists = fs.temp_exists) := by
  rw [dl_finish]
  by_cases hxz : ends_with filename ".xz" = true
  · rw [if_pos hxz]
    obtain ⟨xa, xb, xc⟩ := decompress_with_rust_xz_spec env t fs
    rcases hdec : decompress_with_rust_xz env t fs with ⟨res, t4, fs4⟩
    rw [hdec] at xa xb xc
    dsimp only at xa xb xc
    cases res with
    | error e =>
      dsimp only
      obtain ⟨n1, n2, n3⟩ := xc e rfl
      exact ⟨fun h => n1 (Except.error.inj h), fun h => xb (by rw [Except.error.inj h]),
        fun m h => n2 m (Except.error.inj h), fun m h => n3 m (Except.error.inj h),
        fun e2 _ => xa⟩
    | ok u =>
      dsimp only
      exact ⟨by simp, fun h => absurd h (by simp), fun m => by simp,
        fun m => by simp, fun e2 h => absurd h (by simp)⟩
  · rw [if_neg hxz]
    cases hrn : env.rename_err with
    | some e0 =>
      simp only [hrn]
      refine ⟨fun h => ?_, fun h => ?_, fun m h => ?_, fun m h => ?_, fun e2 _ => trivial⟩
      · exact string_append_ne "Failed to move file: " "Download cancelled" (by decide) e0
          (Except.error.inj h)
      · exact absurd (Except.error.inj h)
          (string_append_ne "Failed to move file: " "Decompression cancelled" (by decide) e0)
      · exact string_append_ne_append "Failed to move file: " "Download error: " 1
          (by decide) (by decide) (by decide) e0 m (Except.error.inj h)
      · exact string_append_ne_append "Failed to move file: " "SHA256 verification failed: " 1
          (by decide) (by decide) (by decide) e0 m (Except.error.inj h)
    | none =>
      simp only [hrn]
      exact ⟨by simp, fun h => absurd h (by simp), fun m => by simp,
        fun m => by simp, fun e2 h => absurd h (by simp)⟩

end ArmbianImager

namespace ArmbianImager

/-- The only error `extract_filename` produces is the invalid-URL message. -/
theorem extract_filename_error_eq (url e : String)
    (h : extract_filename url = .error e) : e = "Invalid URL: no filename" := by
  rw [extract_filename] at h
  split at h
  · exact (Except.error.inj h).symm
  · exact absurd h (by simp)

/-- Master cleanup analysis of `download_image`: cancellation observed in the
network loop or during SHA hashing removes both the temp file and any output
file; decompression-stage cancellation removes the output file; a mid-stream
transport error preserves the temp file; a verification failure removes it. -/
theorem download_image_spec (env : DlEnv) (url : String) (sha_url : Option String) :
    ((download_image env url sha_url).result = .error "Download cancelled" →
      (download_image env url sha_url).fs.temp_exists = false ∧
      (download_image env url sha_url).fs.output_exists = false) ∧
    ((download_image env url sha_url).result = .error "Decompression cancelled" →
      (download_image env url sha_url).fs.output_exists = false) ∧
    (∀ m, (download_image env url sha_url).result = .error ("Download error: " ++ m) →
      (download_image env url sha_url).fs.temp_exists = true) ∧
    (∀ m, (download_image env url sha_url).result =
        .error ("SHA256 verification failed: " ++ m) →
      (download_image env url sha_url).fs.temp_exists = false) := by
  cases hext : extract_filename url with
  | error e =>
    have he := extract_filename_error_eq url e hext
    subst he
    have hd : download_image env url sha_url =
        ⟨.error "Invalid URL: no filename", ⟨false, false, 0, 0, []⟩⟩ := by
      simp [download_image, hext]
    rw [hd]
    refine ⟨fun _ => ⟨rfl, rfl⟩, fun _ => rfl, fun m h => ?_, fun m _ => rfl⟩
    exact absurd (Except.error.inj h).symm
      (string_append_ne "Download error: " "Invalid URL: no filename" (by decide) m)
  | ok filename =>
    cases hcache : env.cache_lookup (trim_end_matches filename ".xz") with
    | some cached =>
      have hd : download_image env url sha_url = ⟨.ok cached, ⟨false, true, 0, 0, [cached]⟩⟩ := by
        simp [download_image, hext, hcache]
      rw [hd]
      exact ⟨fun h => absurd h (by simp), fun h => absurd h (by simp),
        fun m h => absurd h (by simp), fun m h => absurd h (by simp)⟩
    | none =>
      cases hdir : env.create_dir_err with
      | some e =>
        have hd : download_image env url sha_url =
            ⟨.error ("Failed to create output directory: " ++ e), ⟨false, false, 0, 0, []⟩⟩ := by
          simp [download_image, hext, hcache, hdir]
        rw [hd]
        refine ⟨fun _ => ⟨rfl, rfl⟩, fun _ => rfl, fun m h => ?_, fun m _ => rfl⟩
        exact absurd (Except.error.inj h)
          (string_append_ne_append "Failed to create output directory: " "Download error: " 1
            (by decide) (by decide) (by decide) e m)
      | none =>
        cases hcl : env.client_err with
        | some e =>
          have hd : download_image env url sha_url =
              ⟨.error ("Failed to create HTTP client: " ++ e), ⟨false, false, 0, 1, []⟩⟩ := by
            simp [download_image, hext, hcache, hdir, hcl]
          rw [hd]
          refine ⟨fun _ => ⟨rfl, rfl⟩, fun _ => rfl, fun m h => ?_, fun m _ => rfl⟩
          exact absurd (Except.error.inj h)
            (string_append_ne_append "Failed to create HTTP client: " "Download error: " 1
              (by decide) (by decide) (by decide) e m)
        | none =>
          cases hsend : env.send with
          | error e =>
            have hd : download_image env url sha_url =
                ⟨.error ("Failed to start download: " ++ e), ⟨false, false, 1, 1, []⟩⟩ := by
              simp [download_image, hext, hcache, hdir, hcl, hsend]
            rw [hd]
            refine ⟨fun _ => ⟨rfl, rfl⟩, fun _ => rfl, fun m h => ?_, fun m _ => rfl⟩
            exact absurd (Except.error.inj h)
              (string_append_ne_append "Failed to start download: " "Download error: " 1
                (by decide) (by decide) (by decide) e m)
          | ok resp =>
            by_cases hst : resp.status_ok = false
            · have hd : download_image env url sha_url =
                  ⟨.error ("Download failed with status: " ++ resp.status),
                    ⟨false, false, 1, 1, []⟩⟩ := by
                simp [download_image, hext, hcache, hdir, hcl, hsend, hst]
              rw [hd]
              refine ⟨fun _ => ⟨rfl, rfl⟩, fun _ => rfl, fun m h => ?_, fun m _ => rfl⟩
              exact absurd (Except.error.inj h)
                (string_append_ne_append "Download failed with status: " "Download error: " 10
                  (by decide) (by decide) (by decide) resp.status m)
            · have hst2 : resp.status_ok = true := by simpa using hst
              cases htc : env.temp_create_err with
              | some e =>
                have hd : download_image env url sha_url =
                    ⟨.error ("Failed to create temp file: " ++ e), ⟨false, false, 1, 1, []⟩⟩ := by
                  simp [download_image, hext, hcache, hdir, hcl, hsend, hst2, htc]
                rw [hd]
                refine ⟨fun _ => ⟨rfl, rfl⟩, fun _ => rfl, fun m h => ?_, fun m _ => rfl⟩
                exact absurd (Except.error.inj h)
                  (string_append_ne_append "Failed to create temp file: " "Download error: " 1
                    (by decide) (by decide) (by decide) e m)
              | none =>
                obtain ⟨sa, sb, sc, sd⟩ := dl_stream_loop_spec env.cancel env.write_err
                  resp.chunks 0 0 ⟨true, false, 1, 2, []⟩
                rcases hstream : dl_stream_loop env.cancel env.write_err resp.chunks 0 0
                    ⟨true, false, 1, 2, []⟩ with ⟨sres, t2, fs2⟩
                rw [hstream] at sa sb sc sd
                dsimp only at sa sb sc sd
                cases sres with
                | error e =>
                  have hd : download_image env url sha_url = ⟨.error e, fs2⟩ := by
                    simp [download_image, hext, hcache, hdir, hcl, hsend, hst2, htc, hstream]
                  rw [hd]
                  refine ⟨fun h => ⟨sb (by rw [Except.error.inj h]), sa⟩, fun _ => sa,
                    fun m h => ?_, fun m h => ?_⟩
                  · have he : e = "Download error: " ++ m := Except.error.inj h
                    have := sc (fun hcon => string_append_ne "Download error: "
                      "Download cancelled" (by decide) m
                      (he.symm.trans (Except.error.inj hcon)))
                    exact this
                  · have he : e = "SHA256 verification failed: " ++ m := Except.error.inj h
                    rcases sd with h1 | h1 | ⟨m2, h1⟩ | ⟨m2, h1⟩
                    · exact absurd h1 (by simp)
                    · exact absurd (he.symm.trans (Except.error.inj h1))
                        (string_append_ne "SHA256 verification failed: " "Download cancelled"
                          (by decide) m)
                    · exact absurd (he.symm.trans (Except.error.inj h1))
                        (string_append_ne_append "SHA256 verification failed: "
                          "Download error: " 1 (by decide) (by decide) (by decide) m m2)
                    · exact absurd (he.symm.trans (Except.error.inj h1))
                        (string_append_ne_append "SHA256 verification failed: "
                          "Failed to write chunk: " 1 (by decide) (by decide) (by decide) m m2)
                | ok u =>
                  by_cases hcv : (is_github_url url || sha_url.isSome) = true
                  · rcases hver : verify_sha256 env filename url sha_url
                        (downloaded_content resp.chunks) t2 with ⟨vres, t3, net⟩
                    cases vres with
                    | error ev =>
                      by_cases hcan : env.cancel t3 = true
                      · have hd : download_image env url sha_url =
                            ⟨.error "Download cancelled",
                              { fs2 with temp_exists := false, net_calls := fs2.net_calls + net }⟩ := by
                          simp [download_image, hext, hcache, hdir, hcl, hsend, hst2, htc,
                            hstream, hcv, hver, hcan]
                        rw [hd]
                        refine ⟨fun _ => ⟨rfl, sa⟩, fun _ => sa, fun m h => ?_, fun m _ => rfl⟩
                        exact absurd (Except.error.inj h).symm
                          (string_append_ne "Download error: " "Download cancelled"
                            (by decide) m)
                      · have hcan2 : env.cancel t3 = false := by simpa using hcan
                        have hd : download_image env url sha_url =
                            ⟨.error ("SHA256 verification failed: " ++ ev),
                              { fs2 with temp_exists := false, net_calls := fs2.net_calls + net }⟩ := by
                          simp [download_image, hext, hcache, hdir, hcl, hsend, hst2, htc,
                            hstream, hcv, hver, hcan2]
                        rw [hd]
                        refine ⟨fun _ => ⟨rfl, sa⟩, fun _ => sa, fun m h => ?_, fun m _ => rfl⟩
                        exact absurd (Except.error.inj h)
                          (string_append_ne_append "SHA256 verification failed: "
                            "Download error: " 1 (by decide) (by decide) (by decide) ev m)
                    | ok uv =>
                      obtain ⟨fa, fb, fc, fd, fe⟩ := dl_finish_spec env filename t3
                        { fs2 with net_calls := fs2.net_calls + net }
                      have hd : download_image env url sha_url =
                          dl_finish env filename t3
                            { fs2 with net_calls := fs2.net_calls + net } := by
                        simp [download_image, hext, hcache, hdir, hcl, hsend, hst2, htc,
                          hstream, hcv, hver]
                      rw [hd]
                      exact ⟨fun h => absurd h fa, fun h => fb h,
                        fun m h => absurd h (fc m), fun m h => absurd h (fd m)⟩
                  · have hcv2 : (is_github_url url || sha_url.isSome) = false := by
                      simpa using hcv
                    obtain ⟨fa, fb, fc, fd, fe⟩ := dl_finish_spec env filename t2 fs2
                    have hd : download_image env url sha_url = dl_finish env filename t2 fs2 := by
                      simp [download_image, hext, hcache, hdir, hcl, hsend, hst2, htc,
                        hstream, hcv2]
                    rw [hd]
                    exact ⟨fun h => absurd h fa, fun h => fb h,
                      fun m h => absurd h (fc m), fun m h => absurd h (fd m)⟩

end ArmbianImager

namespace ArmbianImager

/-! ## Claim theorems: C3, C4, C5 -/

/-- A benign environment for concrete download runs: one received chunk,
no call fails, the flag is never set. -/
def dl_env_base : DlEnv :=
  { cache_lookup := fun _ => none
    output_dir := "cache/images"
    create_dir_err := none
    client_err := none
    send := .ok ⟨true, "200 OK", [.ok [7]]⟩
    temp_create_err := none
    write_err := fun _ => none
    github_digest := none
    sha_fetch := .error "unused"
    sha256 := fun _ => "aaaa"
    xz_open_err := none
    xz_decoder_err := none
    out_create_err := none
    decomp_reads := [.ok [0]]
    decomp_write_err := fun _ => none
    flush_err := none
    rename_err := none
    cancel := fun _ => false }

/-- C3 counterexample: cancelling during the decompression loop (the flag is
first observed at poll 1, inside the xz copy loop) deletes the partial
output but leaves the `<filename>.downloading` temp file on disk — the
engine propagates the decompression error without removing the temp file,
contradicting the claimed idempotent cleanup. -/
theorem download_cancel_decompress_cex :
    (download_image { dl_env_base with cancel := fun t => decide (1 ≤ t) }
      "https://dl.example.com/a/img.img.xz" none).result = .error "Decompression cancelled" ∧
    (download_image { dl_env_base with cancel := fun t => decide (1 ≤ t) }
      "https://dl.example.com/a/img.img.xz" none).fs.temp_exists = true ∧
    (download_image { dl_env_base with cancel := fun t => decide (1 ≤ t) }
      "https://dl.example.com/a/img.img.xz" none).fs.output_exists = false := by
  exact ⟨rfl, rfl, rfl⟩

/-- C3 amended: cancellation observed during the network stream or the SHA
hashing (result "Download cancelled") removes both the temp file and any
file at the output path; cancellation observed in the decompression loop
(result "Decompression cancelled") removes the partial output file, but the
temp file is left behind (see the counterexample). -/
theorem download_cancel_cleanup (env : DlEnv) (url : String) (sha_url : Option String) :
    ((download_image env url sha_url).result = .error "Download cancelled" →
      (download_image env url sha_url).fs.temp_exists = false ∧
      (download_image env url sha_url).fs.output_exists = false) ∧
    ((download_image env url sha_url).result = .error "Decompression cancelled" →
      (download_image env url sha_url).fs.output_exists = false) :=
  ⟨(download_image_spec env url sha_url).1, (download_image_spec env url sha_url).2.1⟩

/-- C3 amended, witness: a run cancelled from the start (flag observed at
the first stream poll) and a run cancelled during decompression. -/
theorem download_cancel_cleanup_witness :
    ((download_image { dl_env_base with cancel := fun _ => true }
        "https://dl.example.com/a/img.img.xz" none).fs.temp_exists = false ∧
      (download_image { dl_env_base with cancel := fun _ => true }
        "https://dl.example.com/a/img.img.xz" none).fs.output_exists = false) ∧
    (download_image { dl_env_base with cancel := fun t => decide (1 ≤ t) }
      "https://dl.example.com/a/img.img.xz" none).fs.output_exists = false :=
  ⟨(download_cancel_cleanup { dl_env_base with cancel := fun _ => true }
      "https://dl.example.com/a/img.img.xz" none).1 rfl,
    (download_cancel_cleanup { dl_env_base with cancel := fun t => decide (1 ≤ t) }
      "https://dl.example.com/a/img.img.xz" none).2 rfl⟩

/-- C4 counterexample: a SHA-256 verification mismatch (expected digest
"aaaa" from the GitHub releases API, computed digest "bbbb") is a
non-cancellation failure, yet the engine deletes the temp file rather than
preserving it. -/
theorem download_sha_mismatch_deletes_temp_cex :
    (download_image { dl_env_base with github_digest := some "aaaa", sha256 := fun _ => "bbbb" }
      "https://github.com/armbian/os/releases/x.img" none).result =
      .error "SHA256 verification failed: SHA256 mismatch: expected aaaa, got bbbb" ∧
    (download_image { dl_env_base with github_digest := some "aaaa", sha256 := fun _ => "bbbb" }
      "https://github.com/armbian/os/releases/x.img" none).fs.temp_exists = false := by
  exact ⟨rfl, rfl⟩

/-- C4 amended: a mid-stream transport error preserves the temp file for
diagnosis (a non-success HTTP status aborts before the temp file is even
created), but a SHA-256 verification failure — mismatch included — deletes
it. -/
theorem download_failure_temp_policy (env : DlEnv) (url : String) (sha_url : Option String) :
    (∀ m, (download_image env url sha_url).result = .error ("Download error: " ++ m) →
      (download_image env url sha_url).fs.temp_exists = true) ∧
    (∀ m, (download_image env url sha_url).result =
        .error ("SHA256 verification failed: " ++ m) →
      (download_image env url sha_url).fs.temp_exists = false) :=
  ⟨(download_image_spec env url sha_url).2.2.1, (download_image_spec env url sha_url).2.2.2⟩

/-- C4 amended, witness: a transport error mid-stream, and the mismatch
run of the counterexample environment. -/
theorem download_failure_temp_policy_witness :
    (download_image { dl_env_base with
        send := .ok ⟨true, "200 OK", [.error "connection reset"]⟩ }
      "https://dl.example.com/a/img.img.xz" none).fs.temp_exists = true ∧
    (download_image { dl_env_base with github_digest := some "aaaa", sha256 := fun _ => "bbbb" }
      "https://github.com/armbian/os/releases/x.img" none).fs.temp_exists = false :=
  ⟨(download_failure_temp_policy { dl_env_base with
        send := .ok ⟨true, "200 OK", [.error "connection reset"]⟩ }
      "https://dl.example.com/a/img.img.xz" none).1 "connection reset" rfl,
    (download_failure_temp_policy
      { dl_env_base with github_digest := some "aaaa", sha256 := fun _ => "bbbb" }
      "https://github.com/armbian/os/releases/x.img" none).2
      "SHA256 mismatch: expected aaaa, got bbbb" rfl⟩

/-- C5: when the cache lookup on the decompressed filename hits,
`download_image` returns the cached path at once, with the only effect the
mtime touch of the hit — no network call, no filesystem write, no temp
file. -/
theorem download_cache_hit (env : DlEnv) (url f p : String) (sha_url : Option String)
    (hf : extract_filename url = .ok f)
    (hc : env.cache_lookup (trim_end_matches f ".xz") = some p) :
    download_image env url sha_url = ⟨.ok p, ⟨false, true, 0, 0, [p]⟩⟩ := by
  simp [download_image, hf, hc]

/-- C5 witness: a cached "img.img" short-circuits the download of
"img.img.xz". -/
theorem download_cache_hit_witness :
    download_image { dl_env_base with
        cache_lookup := fun n => if n = "img.img" then some "cache/images/img.img" else none }
      "https://dl.armbian.com/x/img.img.xz" none =
      ⟨.ok "cache/images/img.img", ⟨false, true, 0, 0, ["cache/images/img.img"]⟩⟩ :=
  download_cache_hit { dl_env_base with
      cache_lookup := fun n => if n = "img.img" then some "cache/images/img.img" else none }
    "https://dl.armbian.com/x/img.img.xz" "img.img.xz" "cache/images/img.img" none (by rfl) (by rfl)

end ArmbianImager
